import Mathlib

/-!
Shallow embedding of the audio-level monitoring subsystem of this repository
(`src/audio_monitor.py`, class `AudioMonitor`).

Modelling conventions:
* Python floats (RMS levels, timestamps from `time.time()`, durations) are
  modelled by `ℚ`.  The lamp state machine only compares, subtracts and
  averages these quantities, so an exact ordered field is a faithful model.
* One iteration of the body of `AudioMonitor._monitor_loop` is split the way
  the code is: reading a chunk and the consecutive-error counter
  (`loopIter` / `runLoop`, lines 416-464), RMS buffer ingestion and
  averaging (`ingest`, lines 481-495), and the lamp state machine acting on
  the smoothed level (`levelCheck`, lines 502-553) followed by the
  lamp-change callback block (`callbackCheck`, lines 555-571).
* `time.time()` is called several times per iteration in the code; all calls
  within one iteration are modelled by the single timestamp `now` of that
  iteration.
* The Python truthiness test `if self.silence_start_time` on line 560/566 is
  modelled as an `Option` test (`none` ↦ 0); real `time.time()` values are
  never the float `0.0`, and all concrete inputs used below have positive
  timestamps, where both readings agree.
* Callbacks are modelled as emitted events: `LampEvent.toRed e` for
  `on_silence_warning(e)` and `LampEvent.toGreen e` for
  `on_sound_restored(e)`.
* The threading aspects of `start_monitoring` / `stop_monitoring` are
  modelled by a sequential supervisor state that counts live monitor-loop
  threads (`liveLoops`); a spawned loop keeps running while `is_monitoring`
  is true, and `stop_monitoring`'s join/drain lets every loop observe the
  cleared flag and exit, which the model folds into the `stop_monitoring`
  transition.  Already the sequential traces of this model settle the
  claims about loop multiplicity.
-/

/-- Tunable parameters of `AudioMonitor.__init__`: `threshold`,
`silence_duration` and `sound_confirmation_duration` (defaults 0.01, 20, 5). -/
structure Params where
  threshold : ℚ
  silence_duration : ℚ
  sound_confirmation_duration : ℚ

/-- The lamp state machine's fields of `AudioMonitor`:
`lamp_status` (true = red), `previous_lamp_status`, `silence_start_time`,
`sound_start_time` and `sound_confirmed` (lines 96-106). -/
structure MonitorState where
  lamp_status : Bool
  previous_lamp_status : Bool
  silence_start_time : Option ℚ
  sound_start_time : Option ℚ
  sound_confirmed : Bool
deriving DecidableEq, Repr

/-- A lamp-transition callback invocation with its payload: `toRed e` models
`on_silence_warning(e)` (line 562), `toGreen e` models `on_sound_restored(e)`
(line 568). -/
inductive LampEvent where
  | toRed (elapsed : ℚ)
  | toGreen (elapsed : ℚ)
deriving DecidableEq, Repr

/-- Lines 502-553 of `_monitor_loop`: the level check on the smoothed RMS
`avg` at timestamp `now`.  Silence branch: reset `sound_confirmed` and
`sound_start_time`, start the silence clock if unset, and set the lamp red
once the silence has lasted at least `silence_duration`.  Sound branch:
clear the silence clock, start the sound clock if unset, otherwise confirm
the sound once it has lasted at least `sound_confirmation_duration`, and set
the lamp green whenever the sound is confirmed. -/
def levelCheck (p : Params) (now avg : ℚ) (s : MonitorState) : MonitorState :=
  if avg < p.threshold then
    let s1 : MonitorState := { s with sound_confirmed := false, sound_start_time := none }
    let sil : ℚ := s1.silence_start_time.getD now
    let s2 : MonitorState := { s1 with silence_start_time := some sil }
    if p.silence_duration ≤ now - sil then { s2 with lamp_status := true } else s2
  else
    let s1 : MonitorState := { s with silence_start_time := none }
    let s2 : MonitorState :=
      match s1.sound_start_time with
      | none => { s1 with sound_start_time := some now }
      | some t0 =>
        if p.sound_confirmation_duration ≤ now - t0 ∧ s1.sound_confirmed = false then
          { s1 with sound_confirmed := true }
        else s1
    if s2.sound_confirmed then { s2 with lamp_status := false } else s2

/-- Lines 555-571 of `_monitor_loop`: if the lamp differs from
`previous_lamp_status`, fire exactly one transition callback carrying
`now - silence_start_time` (or 0 when the silence clock is unset) and persist
the new lamp value as the previous one. -/
def callbackCheck (now : ℚ) (s : MonitorState) : MonitorState × List LampEvent :=
  if s.lamp_status ≠ s.previous_lamp_status then
    let elapsed : ℚ :=
      match s.silence_start_time with
      | some t => now - t
      | none => 0
    let ev : LampEvent :=
      if s.lamp_status then LampEvent.toRed elapsed else LampEvent.toGreen elapsed
    ({ s with previous_lamp_status := s.lamp_status }, [ev])
  else (s, [])

/-- One full lamp-machine iteration of `_monitor_loop` on a smoothed level:
the level check followed by the lamp-change callback block. -/
def monStep (p : Params) (now avg : ℚ) (s : MonitorState) : MonitorState × List LampEvent :=
  callbackCheck now (levelCheck p now avg s)

/-- Iterating `monStep` over a list of `(timestamp, smoothed level)` inputs,
collecting the emitted callback events in order. -/
def monRunEvents (p : Params) : MonitorState → List (ℚ × ℚ) → MonitorState × List LampEvent
  | s, [] => (s, [])
  | s, x :: rest =>
    let r1 := monStep p x.1 x.2 s
    let r2 := monRunEvents p r1.1 rest
    (r2.1, r1.2 ++ r2.2)

/-- The lamp-machine state right after `start_monitoring` (lines 343-349):
lamp red, previous red, both clocks unset, sound not confirmed. -/
def startState : MonitorState := ⟨true, true, none, none, false⟩

/-- An ongoing-silence state: silence clock running since `t0`, lamp and
previous lamp both `L`, sound clock unset, sound not confirmed. -/
def silStreak (L : Bool) (t0 : ℚ) : MonitorState := ⟨L, L, some t0, none, false⟩

/-- An ongoing unconfirmed-sound state: sound clock running since `t0`, lamp
and previous lamp both `L`, silence clock unset, sound not confirmed. -/
def soundStreak (L : Bool) (t0 : ℚ) : MonitorState := ⟨L, L, none, some t0, false⟩

/-- The confirmed-sound state: lamp green, sound clock running since `t0`,
sound confirmed. -/
def greenGo (t0 : ℚ) : MonitorState := ⟨false, false, none, some t0, true⟩

/-- Timestamp of the first input whose elapsed time since `t0` reaches
`dur`, if any. -/
def firstCrossing (dur t0 : ℚ) : List (ℚ × ℚ) → Option ℚ
  | [] => none
  | x :: rest => if dur ≤ x.1 - t0 then some x.1 else firstCrossing dur t0 rest

/-- Lines 481-495 of `_monitor_loop`: append the chunk RMS to the buffer,
drop the oldest entry if the buffer exceeds `buffer_size`, and return the new
buffer together with the smoothed level (the buffer mean, or the raw RMS if
the buffer is empty). -/
def ingest (buffer_size : Nat) (buf : List ℚ) (rms : ℚ) : List ℚ × ℚ :=
  let buf1 : List ℚ := buf ++ [rms]
  let buf2 : List ℚ := if buffer_size < buf1.length then buf1.drop 1 else buf1
  let avg : ℚ := if 0 < buf2.length then buf2.sum / (buf2.length : ℚ) else rms
  (buf2, avg)

/-- `max_errors` of `_monitor_loop` (line 419): the loop aborts after this
many consecutive read failures. -/
def max_errors : Nat := 5

/-- The outcome of one `stream.read` in `_monitor_loop` (line 440): a chunk
whose RMS is `rms`, read at timestamp `t`, or a read failure. -/
inductive ReadResult where
  | ok (t : ℚ) (rms : ℚ)
  | fail
deriving DecidableEq, Repr

/-- The per-loop mutable fields written by `_monitor_loop`: lamp-machine
state, the RMS buffer, `current_level` and the consecutive-error counter. -/
structure LoopState where
  mon : MonitorState
  rms_buffer : List ℚ
  current_level : ℚ
  error_count : Nat
deriving DecidableEq, Repr

/-- One iteration of `_monitor_loop` (lines 421-571): a failed read
increments `error_count` and requests a loop break once it reaches
`max_errors` (lines 442-448); a successful read resets `error_count` to zero
(line 441), ingests the RMS, updates `current_level` and runs the lamp
machine on the smoothed level.  Returns the new state, the emitted events,
and whether the loop breaks. -/
def loopIter (p : Params) (buffer_size : Nat) (s : LoopState) (r : ReadResult) :
    LoopState × List LampEvent × Bool :=
  match r with
  | ReadResult.fail =>
    let c : Nat := s.error_count + 1
    ({ s with error_count := c }, [], decide (max_errors ≤ c))
  | ReadResult.ok t rms =>
    let s1 : LoopState := { s with error_count := 0 }
    let ia := ingest buffer_size s1.rms_buffer rms
    let ms := monStep p t ia.2 s1.mon
    ({ s1 with rms_buffer := ia.1, current_level := ia.2, mon := ms.1 }, ms.2, false)

/-- Running `_monitor_loop` over a list of read outcomes, stopping early when
an iteration requests a break; the `Bool` reports whether the loop aborted
through the consecutive-error path. -/
def runLoop (p : Params) (buffer_size : Nat) : LoopState → List ReadResult → LoopState × Bool
  | s, [] => (s, false)
  | s, r :: rest =>
    let step := loopIter p buffer_size s r
    if step.2.2 then (step.1, true) else runLoop p buffer_size step.1 rest

/-- The status snapshot returned by `get_lamp_status` (lines 606-618). -/
structure LampStatus where
  lamp_lit : Bool
  audio_level : ℚ
  monitoring_active : Bool
  monitoring_enabled : Bool
deriving DecidableEq, Repr

/-- A monitoring session: the `monitoring_enabled` and `is_monitoring` flags
of `AudioMonitor` together with the loop-owned state.  `_monitor_loop` never
writes `is_monitoring`; its error-path `break` (line 448) merely ends the
loop, which `runSession` reflects by leaving both flags untouched. -/
structure Session where
  monitoring_enabled : Bool
  is_monitoring : Bool
  loop : LoopState
deriving DecidableEq, Repr

/-- `get_lamp_status` (lines 606-618): the thread-safe snapshot, whose
`monitoring_active` field is exactly the `is_monitoring` flag. -/
def get_lamp_status (s : Session) : LampStatus :=
  ⟨s.loop.mon.lamp_status, s.loop.current_level, s.is_monitoring, s.monitoring_enabled⟩

/-- Running the monitor loop of a session over a list of read outcomes.
Only the loop-owned fields change; in particular an error-path abort leaves
`is_monitoring` as it was. -/
def runSession (p : Params) (buffer_size : Nat) (s : Session) (rs : List ReadResult) :
    Session × Bool :=
  let r := runLoop p buffer_size s.loop rs
  ({ s with loop := r.1 }, r.2)

/-- The ordered observable actions of `stop_monitoring` (lines 376-414):
clearing `is_monitoring` (line 387), joining the monitor thread (line 392),
closing the audio stream (lines 397-412). -/
inductive StopEvent where
  | signalStop
  | joinThread
  | closeStream
deriving DecidableEq, Repr

/-- The supervisor-level state for the start/stop lifecycle: the two flags,
the number of live monitor-loop threads, and whether the stream is open. -/
structure SupervisorState where
  monitoring_enabled : Bool
  is_monitoring : Bool
  liveLoops : Nat
  streamOpen : Bool
deriving DecidableEq, Repr

/-- `start_monitoring` (lines 141-360): returns false without side effects
when `monitoring_enabled` is false (lines 143-145) or when device negotiation
fails (lines 336-338, abstracted by `devOk`); otherwise opens the stream,
sets `is_monitoring` and spawns one new monitor-loop thread (lines 341-352).
The code performs no check of `is_monitoring` and no join of a previous
thread before spawning, so any loops already alive stay alive. -/
def start_monitoring (devOk : Bool) (s : SupervisorState) : SupervisorState × Bool :=
  if s.monitoring_enabled = false then (s, false)
  else if devOk = false then (s, false)
  else ({ s with is_monitoring := true, streamOpen := true, liveLoops := s.liveLoops + 1 }, true)

/-- `stop_monitoring` (lines 376-414): under `_stop_lock`, return at once if
`is_monitoring` is already false (lines 380-382); otherwise clear the flag,
join the monitor thread (every live loop observes the cleared flag and
exits, folded into this transition), and only then close the stream,
emitting the three actions in that order. -/
def stop_monitoring (s : SupervisorState) : SupervisorState × List StopEvent :=
  if s.is_monitoring = false then (s, [])
  else ({ s with is_monitoring := false, liveLoops := 0, streamOpen := false },
        [StopEvent.signalStop, StopEvent.joinThread, StopEvent.closeStream])

/-! ### Single-step behaviour of the lamp machine -/

/-- A silent sample during an ongoing silence streak: the lamp turns (or
stays) red exactly when the elapsed silence reaches `silence_duration`, and
the transition callback fires only on a green-to-red change. -/
theorem stepSilent_silStreak (p : Params) (t l t0 : ℚ) (L : Bool)
    (hl : l < p.threshold) :
    monStep p t l (silStreak L t0) =
      if p.silence_duration ≤ t - t0 then
        (silStreak true t0, if L then [] else [LampEvent.toRed (t - t0)])
      else (silStreak L t0, []) := by
  by_cases h : p.silence_duration ≤ t - t0 <;> cases L <;>
    simp [monStep, levelCheck, callbackCheck, silStreak, hl, Option.getD, h]

/-- A silent sample in a state with no running silence clock (and lamp in
sync with its previous value): the silence clock starts at `t`; the lamp
changes only in the degenerate case `silence_duration ≤ 0`. -/
theorem stepSilent_first (p : Params) (t l : ℚ) (L : Bool) (sst : Option ℚ)
    (conf : Bool) (hl : l < p.threshold) :
    monStep p t l ⟨L, L, none, sst, conf⟩ =
      if p.silence_duration ≤ 0 then
        (silStreak true t, if L then [] else [LampEvent.toRed 0])
      else (silStreak L t, []) := by
  by_cases h : p.silence_duration ≤ 0 <;> cases L <;>
    simp [monStep, levelCheck, callbackCheck, silStreak, hl, Option.getD, h]

/-- A loud sample during an ongoing unconfirmed sound streak: the sound is
confirmed and the lamp turns green exactly when the elapsed sound reaches
`sound_confirmation_duration`; the green callback (fired only on a
red-to-green change) carries payload 0 because the silence clock is unset. -/
theorem stepSound_streak (p : Params) (t l t0 : ℚ) (L : Bool)
    (hl : ¬ l < p.threshold) :
    monStep p t l (soundStreak L t0) =
      if p.sound_confirmation_duration ≤ t - t0 then
        (greenGo t0, if L then [LampEvent.toGreen 0] else [])
      else (soundStreak L t0, []) := by
  cases L <;>
    simp [monStep, levelCheck, callbackCheck, soundStreak, greenGo, hl] <;>
    by_cases h : p.sound_confirmation_duration ≤ t - t0 <;>
    simp [h]

/-- A loud sample in a state with no running sound clock and unconfirmed
sound: only the sound clock is set (to `t`); the lamp does not change and no
callback fires, for every parameter choice — including
`sound_confirmation_duration = 0`. -/
theorem stepSound_first (p : Params) (t l : ℚ) (L : Bool) (ss : Option ℚ)
    (hl : ¬ l < p.threshold) :
    monStep p t l ⟨L, L, ss, none, false⟩ = (soundStreak L t, []) := by
  cases L <;> simp [monStep, levelCheck, callbackCheck, soundStreak, hl]

/-- A loud sample in the confirmed-sound state: nothing changes and no
callback fires. -/
theorem stepSound_confirmed (p : Params) (t l t0 : ℚ)
    (hl : ¬ l < p.threshold) :
    monStep p t l (greenGo t0) = (greenGo t0, []) := by
  simp [monStep, levelCheck, callbackCheck, greenGo, hl]

/-! ### Multi-step behaviour of the lamp machine -/

/-- If every input stays strictly less than `dur` seconds after `t0`, no
crossing exists. -/
theorem firstCrossing_none (dur t0 : ℚ) :
    ∀ xs : List (ℚ × ℚ), (∀ x ∈ xs, x.1 - t0 < dur) →
    firstCrossing dur t0 xs = none := by
  intro xs
  induction xs with
  | nil => intro _; rfl
  | cons x rest ih =>
    intro h
    have hx : ¬ dur ≤ x.1 - t0 := not_le.mpr (h x (List.mem_cons_self _ _))
    simp only [firstCrossing, if_neg hx]
    exact ih fun y hy => h y (List.mem_cons_of_mem _ hy)

/-- A red-lamp silence streak absorbs silent samples: the state is invariant
and no callback ever fires. -/
theorem runSilent_red (p : Params) (t0 : ℚ) :
    ∀ xs : List (ℚ × ℚ), (∀ x ∈ xs, x.2 < p.threshold) →
    monRunEvents p (silStreak true t0) xs = (silStreak true t0, []) := by
  intro xs
  induction xs with
  | nil => intro _; rfl
  | cons x rest ih =>
    intro h
    have hx : x.2 < p.threshold := h x (List.mem_cons_self _ _)
    have hr := ih fun y hy => h y (List.mem_cons_of_mem _ hy)
    simp only [monRunEvents]
    rw [stepSilent_silStreak p x.1 x.2 t0 true hx]
    by_cases hc : p.silence_duration ≤ x.1 - t0 <;> simp [hc, hr]

/-- A green-lamp silence streak over silent samples: the lamp flips to red,
with a single red callback carrying the elapsed silence, exactly at the
first input whose elapsed silence reaches `silence_duration`; before that
nothing changes and nothing fires. -/
theorem runSilent_green (p : Params) (t0 : ℚ) :
    ∀ xs : List (ℚ × ℚ), (∀ x ∈ xs, x.2 < p.threshold) →
    monRunEvents p (silStreak false t0) xs =
      (match firstCrossing p.silence_duration t0 xs with
       | none => (silStreak false t0, [])
       | some tc => (silStreak true t0, [LampEvent.toRed (tc - t0)])) := by
  intro xs
  induction xs with
  | nil => intro _; rfl
  | cons x rest ih =>
    intro h
    have hx : x.2 < p.threshold := h x (List.mem_cons_self _ _)
    have hrest : ∀ y ∈ rest, y.2 < p.threshold :=
      fun y hy => h y (List.mem_cons_of_mem _ hy)
    simp only [monRunEvents, firstCrossing]
    rw [stepSilent_silStreak p x.1 x.2 t0 false hx]
    by_cases hc : p.silence_duration ≤ x.1 - t0
    · simp [hc, runSilent_red p t0 rest hrest]
    · simp [hc, ih hrest]

/-- The confirmed-sound state absorbs loud samples: the state is invariant
and no callback ever fires. -/
theorem runSound_confirmed (p : Params) (t0 : ℚ) :
    ∀ xs : List (ℚ × ℚ), (∀ x ∈ xs, ¬ x.2 < p.threshold) →
    monRunEvents p (greenGo t0) xs = (greenGo t0, []) := by
  intro xs
  induction xs with
  | nil => intro _; rfl
  | cons x rest ih =>
    intro h
    have hx : ¬ x.2 < p.threshold := h x (List.mem_cons_self _ _)
    have hr := ih fun y hy => h y (List.mem_cons_of_mem _ hy)
    simp only [monRunEvents]
    rw [stepSound_confirmed p x.1 x.2 t0 hx]
    simp [hr]

/-- An unconfirmed sound streak over loud samples: the sound is confirmed
and the lamp set green exactly at the first input whose elapsed sound
reaches `sound_confirmation_duration`; the green callback fires only if the
lamp was red, and carries payload 0. -/
theorem runSound_streak (p : Params) (t0 : ℚ) (L : Bool) :
    ∀ xs : List (ℚ × ℚ), (∀ x ∈ xs, ¬ x.2 < p.threshold) →
    monRunEvents p (soundStreak L t0) xs =
      (match firstCrossing p.sound_confirmation_duration t0 xs with
       | none => (soundStreak L t0, [])
       | some _tc => (greenGo t0, if L then [LampEvent.toGreen 0] else [])) := by
  intro xs
  induction xs with
  | nil => intro _; rfl
  | cons x rest ih =>
    intro h
    have hx : ¬ x.2 < p.threshold := h x (List.mem_cons_self _ _)
    have hrest : ∀ y ∈ rest, ¬ y.2 < p.threshold :=
      fun y hy => h y (List.mem_cons_of_mem _ hy)
    simp only [monRunEvents, firstCrossing]
    rw [stepSound_streak p x.1 x.2 t0 L hx]
    by_cases hc : p.sound_confirmation_duration ≤ x.1 - t0
    · cases L <;> simp [hc, runSound_confirmed p t0 rest hrest]
    · simp [hc, ih hrest]

/-! ### Claim theorems -/

/-- C1 (as stated, refuted at a concrete input): with threshold 1/100,
silence_duration 20 and sound confirmation 5, feeding smoothed level 1/500
(= 0.002) from the state reachable at start for 25 simulated seconds
(timestamps 1, 6, 11, 16, 21, 26) produces no red transition at all — the
emitted event list is empty, not a single transition at the crossing — and
the lamp is already lit (red) after the very first iteration at t = 1,
i.e. well before the 20-second mark. -/
theorem c1_counterexample :
    (monRunEvents ⟨1/100, 20, 5⟩ startState
        [(1, 1/500), (6, 1/500), (11, 1/500), (16, 1/500), (21, 1/500), (26, 1/500)]).2 = []
    ∧ (monStep ⟨1/100, 20, 5⟩ 1 (1/500) startState).1.lamp_status = true := by
  norm_num [monRunEvents, monStep, levelCheck, callbackCheck, startState, Option.getD]

/-- C1 (amended): for every input sequence held below threshold, the lamp is
red from the crossing iteration onward.  From the state reachable at start
the lamp is already red, stays red throughout and no transition event ever
fires; from a reachable green (sound-confirmed) state the lamp turns red
exactly once, precisely at the first iteration whose elapsed silence reaches
`silence_duration`, with the red callback carrying that elapsed silence. -/
theorem c1_red_at_crossing (p : Params) (ts t0 l0 : ℚ) (rest : List (ℚ × ℚ))
    (hl0 : l0 < p.threshold) (hrest : ∀ x ∈ rest, x.2 < p.threshold) :
    monRunEvents p startState ((t0, l0) :: rest) = (silStreak true t0, [])
    ∧ (firstCrossing p.silence_duration t0 ((t0, l0) :: rest) = none →
        monRunEvents p (greenGo ts) ((t0, l0) :: rest) = (silStreak false t0, []))
    ∧ (∀ tc, firstCrossing p.silence_duration t0 ((t0, l0) :: rest) = some tc →
        monRunEvents p (greenGo ts) ((t0, l0) :: rest) =
          (silStreak true t0, [LampEvent.toRed (tc - t0)])) := by
  refine ⟨?_, ?_, ?_⟩
  · simp only [monRunEvents]
    rw [show (startState : MonitorState) = ⟨true, true, none, none, false⟩ from rfl,
      stepSilent_first p t0 l0 true none false hl0]
    by_cases h0 : p.silence_duration ≤ 0 <;>
      simp [h0, runSilent_red p t0 rest hrest]
  · intro hnone
    by_cases h0 : p.silence_duration ≤ 0
    · simp [firstCrossing, sub_self, if_pos h0] at hnone
    · simp only [firstCrossing, sub_self, if_neg h0] at hnone
      simp only [monRunEvents]
      rw [show (greenGo ts : MonitorState) = ⟨false, false, none, some ts, true⟩ from rfl,
        stepSilent_first p t0 l0 false (some ts) true hl0, if_neg h0]
      simp [runSilent_green p t0 rest hrest, hnone]
  · intro tc htc
    by_cases h0 : p.silence_duration ≤ 0
    · simp only [firstCrossing, sub_self, if_pos h0, Option.some.injEq] at htc
      subst htc
      simp only [monRunEvents]
      rw [show (greenGo ts : MonitorState) = ⟨false, false, none, some ts, true⟩ from rfl,
        stepSilent_first p t0 l0 false (some ts) true hl0, if_pos h0]
      simp [runSilent_red p t0 rest hrest, sub_self]
    · simp only [firstCrossing, sub_self, if_neg h0] at htc
      simp only [monRunEvents]
      rw [show (greenGo ts : MonitorState) = ⟨false, false, none, some ts, true⟩ from rfl,
        stepSilent_first p t0 l0 false (some ts) true hl0, if_neg h0]
      simp [runSilent_green p t0 rest hrest, htc]

/-- C1 witness: the amended theorem applied at threshold 1/100,
silence_duration 20, sound confirmation 5, a green state entered at t = 2,
and silent samples at t = 3 and t = 23 with level 1/500. -/
theorem c1_red_at_crossing_witness :
    monRunEvents ⟨1/100, 20, 5⟩ startState [((3 : ℚ), (1 : ℚ)/500), (23, 1/500)]
        = (silStreak true 3, [])
    ∧ (firstCrossing (20 : ℚ) 3 [((3 : ℚ), (1 : ℚ)/500), (23, 1/500)] = none →
        monRunEvents ⟨1/100, 20, 5⟩ (greenGo 2) [((3 : ℚ), (1 : ℚ)/500), (23, 1/500)]
          = (silStreak false 3, []))
    ∧ (∀ tc, firstCrossing (20 : ℚ) 3 [((3 : ℚ), (1 : ℚ)/500), (23, 1/500)] = some tc →
        monRunEvents ⟨1/100, 20, 5⟩ (greenGo 2) [((3 : ℚ), (1 : ℚ)/500), (23, 1/500)]
          = (silStreak true 3, [LampEvent.toRed (tc - 3)])) := by
  have h := c1_red_at_crossing ⟨1/100, 20, 5⟩ 2 3 (1/500) [(23, 1/500)]
    (by norm_num)
    (by intro x hx; rw [List.mem_singleton] at hx; subst hx; norm_num)
  exact h

/-- C2: starting from a red-lamp state with no running sound streak (the
start state has this shape), an uninterrupted sequence of at-or-above
threshold smoothed levels turns the lamp green exactly once — with exactly
one green callback — precisely at the first later iteration whose elapsed
sound reaches `sound_confirmation_duration`, never earlier; the transition
sets `sound_confirmed` and the lamp stays green for the rest of the streak. -/
theorem c2_green_at_confirmation (p : Params) (ss : Option ℚ) (t0 l0 : ℚ)
    (rest : List (ℚ × ℚ))
    (hl0 : ¬ l0 < p.threshold) (hrest : ∀ x ∈ rest, ¬ x.2 < p.threshold) :
    (firstCrossing p.sound_confirmation_duration t0 rest = none →
      monRunEvents p ⟨true, true, ss, none, false⟩ ((t0, l0) :: rest)
        = (soundStreak true t0, []))
    ∧ (∀ tc, firstCrossing p.sound_confirmation_duration t0 rest = some tc →
      monRunEvents p ⟨true, true, ss, none, false⟩ ((t0, l0) :: rest)
        = (greenGo t0, [LampEvent.toGreen 0])) := by
  constructor
  · intro hnone
    simp only [monRunEvents]
    rw [stepSound_first p t0 l0 true ss hl0]
    simp [runSound_streak p t0 true rest hrest, hnone]
  · intro tc htc
    simp only [monRunEvents]
    rw [stepSound_first p t0 l0 true ss hl0]
    simp [runSound_streak p t0 true rest hrest, htc]

/-- C2 witness: the theorem applied at threshold 1/100, sound confirmation 5,
with loud samples (level 1/2) at t = 1, t = 4 and t = 6: the green
transition happens at t = 6, the first iteration with elapsed sound ≥ 5. -/
theorem c2_green_at_confirmation_witness :
    (firstCrossing (5 : ℚ) 1 [((4 : ℚ), (1 : ℚ)/2), (6, 1/2)] = none →
      monRunEvents ⟨1/100, 20, 5⟩ ⟨true, true, none, none, false⟩
          [((1 : ℚ), (1 : ℚ)/2), (4, 1/2), (6, 1/2)] = (soundStreak true 1, []))
    ∧ (∀ tc, firstCrossing (5 : ℚ) 1 [((4 : ℚ), (1 : ℚ)/2), (6, 1/2)] = some tc →
      monRunEvents ⟨1/100, 20, 5⟩ ⟨true, true, none, none, false⟩
          [((1 : ℚ), (1 : ℚ)/2), (4, 1/2), (6, 1/2)]
        = (greenGo 1, [LampEvent.toGreen 0])) := by
  have h := c2_green_at_confirmation ⟨1/100, 20, 5⟩ none 1 (1/2) [(4, 1/2), (6, 1/2)]
    (by norm_num)
    (by intro x hx; rcases List.mem_cons.mp hx with h | h
        · subst h; norm_num
        · rw [List.mem_singleton] at h; subst h; norm_num)
  exact h

/-- C3: a single below-threshold smoothed level cancels any active
sound-confirmation streak — for every state, the silence branch leaves
`sound_confirmed = false` and `sound_started_at` cleared — and after the
dip a fresh uninterrupted sound streak re-confirms (and can set the lamp
green) only at the first later iteration whose elapsed time from the new
sound onset reaches the full `sound_confirmation_duration`. -/
theorem c3_dip_restarts_confirmation (p : Params) (L : Bool) (sst : Option ℚ)
    (conf : Bool) (td ld t0 l0 : ℚ) (rest : List (ℚ × ℚ))
    (hld : ld < p.threshold) (hdur : 0 < p.silence_duration)
    (hl0 : ¬ l0 < p.threshold) (hrest : ∀ x ∈ rest, ¬ x.2 < p.threshold) :
    (∀ s : MonitorState, (monStep p td ld s).1.sound_confirmed = false
        ∧ (monStep p td ld s).1.sound_start_time = none)
    ∧ (firstCrossing p.sound_confirmation_duration t0 rest = none →
        monRunEvents p (monStep p td ld ⟨L, L, none, sst, conf⟩).1 ((t0, l0) :: rest)
          = (soundStreak L t0, []))
    ∧ (∀ tc, firstCrossing p.sound_confirmation_duration t0 rest = some tc →
        monRunEvents p (monStep p td ld ⟨L, L, none, sst, conf⟩).1 ((t0, l0) :: rest)
          = (greenGo t0, if L then [LampEvent.toGreen 0] else [])) := by
  have hstep : (monStep p td ld ⟨L, L, none, sst, conf⟩).1 = silStreak L td := by
    rw [stepSilent_first p td ld L sst conf hld, if_neg (not_le.mpr hdur)]
  refine ⟨?_, ?_, ?_⟩
  · intro s
    constructor <;>
    · simp only [monStep, levelCheck, callbackCheck, if_pos hld]
      split_ifs <;> rfl
  · intro hnone
    rw [hstep]
    simp only [monRunEvents]
    rw [show (silStreak L td : MonitorState) = ⟨L, L, some td, none, false⟩ from rfl,
      stepSound_first p t0 l0 L (some td) hl0]
    simp [runSound_streak p t0 L rest hrest, hnone]
  · intro tc htc
    rw [hstep]
    simp only [monRunEvents]
    rw [show (silStreak L td : MonitorState) = ⟨L, L, some td, none, false⟩ from rfl,
      stepSound_first p t0 l0 L (some td) hl0]
    simp [runSound_streak p t0 L rest hrest, htc]

/-- C3 witness: the theorem applied at threshold 1/100, silence_duration 20,
sound confirmation 5, with a dip (level 1/500) at t = 10 interrupting a green
streak and sound (level 1/2) resuming at t = 11: re-confirmation happens at
t = 16, a full fresh 5 seconds after the new onset. -/
theorem c3_dip_restarts_confirmation_witness :
    (∀ s : MonitorState,
        (monStep ⟨1/100, 20, 5⟩ 10 (1/500) s).1.sound_confirmed = false
        ∧ (monStep ⟨1/100, 20, 5⟩ 10 (1/500) s).1.sound_start_time = none)
    ∧ (firstCrossing (5 : ℚ) 11 [((13 : ℚ), (1 : ℚ)/2), (16, 1/2)] = none →
        monRunEvents ⟨1/100, 20, 5⟩
            (monStep ⟨1/100, 20, 5⟩ 10 (1/500)
              ⟨false, false, none, some 2, true⟩).1
            [((11 : ℚ), (1 : ℚ)/2), (13, 1/2), (16, 1/2)]
          = (soundStreak false 11, []))
    ∧ (∀ tc, firstCrossing (5 : ℚ) 11 [((13 : ℚ), (1 : ℚ)/2), (16, 1/2)] = some tc →
        monRunEvents ⟨1/100, 20, 5⟩
            (monStep ⟨1/100, 20, 5⟩ 10 (1/500)
              ⟨false, false, none, some 2, true⟩).1
            [((11 : ℚ), (1 : ℚ)/2), (13, 1/2), (16, 1/2)]
          = (greenGo 11, if false then [LampEvent.toGreen 0] else [])) := by
  have h := c3_dip_restarts_confirmation ⟨1/100, 20, 5⟩ false (some 2) true 10 (1/500)
    11 (1/2) [(13, 1/2), (16, 1/2)]
    (by norm_num) (by norm_num) (by norm_num)
    (by intro x hx; rcases List.mem_cons.mp hx with h | h
        · subst h; norm_num
        · rw [List.mem_singleton] at h; subst h; norm_num)
  exact h

/-- C4: a sequence of smoothed levels held below threshold, starting a fresh
silence streak and lasting strictly less than `silence_duration`, leaves the
lamp exactly as it was — whether red or green — and fires no callback at
all: no premature red and no per-chunk oscillation. -/
theorem c4_short_silence_keeps_lamp (p : Params) (L : Bool) (sst : Option ℚ)
    (conf : Bool) (t0 l0 : ℚ) (rest : List (ℚ × ℚ))
    (hl0 : l0 < p.threshold) (hrest : ∀ x ∈ rest, x.2 < p.threshold)
    (hshort : ∀ x ∈ (t0, l0) :: rest, x.1 - t0 < p.silence_duration) :
    monRunEvents p ⟨L, L, none, sst, conf⟩ ((t0, l0) :: rest)
      = (silStreak L t0, []) := by
  have h00 : ((t0, l0) : ℚ × ℚ).1 - t0 < p.silence_duration :=
    hshort (t0, l0) (List.mem_cons_self _ _)
  rw [show ((t0, l0) : ℚ × ℚ).1 - t0 = 0 from sub_self t0] at h00
  have h0 : ¬ p.silence_duration ≤ 0 := not_le.mpr h00
  have hrest' : ∀ x ∈ rest, x.1 - t0 < p.silence_duration :=
    fun x hx => hshort x (List.mem_cons_of_mem _ hx)
  have hnone := firstCrossing_none p.silence_duration t0 rest hrest'
  simp only [monRunEvents]
  rw [stepSilent_first p t0 l0 L sst conf hl0, if_neg h0]
  cases L
  · simp [runSilent_green p t0 rest hrest, hnone]
  · simp [runSilent_red p t0 rest hrest]

/-- C4 witness: the theorem applied at threshold 1/100, silence_duration 20,
from a green state, with silent samples (level 1/500) at t = 1, 8, 15 — a
14-second silence: the lamp stays green and no event fires. -/
theorem c4_short_silence_keeps_lamp_witness :
    monRunEvents ⟨1/100, 20, 5⟩ ⟨false, false, none, some 0, true⟩
        [((1 : ℚ), (1 : ℚ)/500), (8, 1/500), (15, 1/500)]
      = (silStreak false 1, []) := by
  have h := c4_short_silence_keeps_lamp ⟨1/100, 20, 5⟩ false (some 0) true
    1 (1/500) [(8, 1/500), (15, 1/500)]
    (by norm_num)
    (by intro x hx; rcases List.mem_cons.mp hx with h | h
        · subst h; norm_num
        · rw [List.mem_singleton] at h; subst h; norm_num)
    (by intro x hx; rcases List.mem_cons.mp hx with h | h
        · subst h; norm_num
        · rcases List.mem_cons.mp h with h | h
          · subst h; norm_num
          · rw [List.mem_singleton] at h; subst h; norm_num)
  exact h

/-- C5: after ingesting a chunk RMS, the buffer holds at most `buffer_size`
entries, the smoothed level equals the arithmetic mean of the buffer's
current contents, and eviction is FIFO: with room the RMS is appended, at
capacity the oldest entry is dropped first. -/
theorem c5_buffer_mean (B : Nat) (buf : List ℚ) (rms : ℚ)
    (hB : 1 ≤ B) (hlen : buf.length ≤ B) :
    (ingest B buf rms).1.length ≤ B
    ∧ (ingest B buf rms).2 = (ingest B buf rms).1.sum / ((ingest B buf rms).1.length : ℚ)
    ∧ (buf.length < B → (ingest B buf rms).1 = buf ++ [rms])
    ∧ (buf.length = B → (ingest B buf rms).1 = buf.drop 1 ++ [rms]) := by
  have hl1 : (buf ++ [rms]).length = buf.length + 1 := by simp
  by_cases h : B < buf.length + 1
  · have hfull : buf.length = B := by omega
    have hpos : 1 ≤ buf.length := by omega
    have hdrop : (buf ++ [rms]).drop 1 = buf.drop 1 ++ [rms] :=
      List.drop_append_of_le_length hpos
    have hdlen : ((buf ++ [rms]).drop 1).length = B := by
      rw [List.length_drop, hl1]
      omega
    refine ⟨?_, ?_, ?_, ?_⟩
    · simp only [ingest, hl1, if_pos h, hdlen]
      omega
    · simp only [ingest, hl1, if_pos h, hdlen]
      rw [if_pos (by omega : 0 < B)]
    · intro hcon; omega
    · intro _
      simp only [ingest, hl1, if_pos h]
      exact hdrop
  · refine ⟨?_, ?_, ?_, ?_⟩
    · simp only [ingest, hl1, if_neg h]
      omega
    · simp only [ingest, hl1, if_neg h]
      rw [if_pos (by omega : 0 < buf.length + 1)]
    · intro _
      simp only [ingest, hl1, if_neg h]
    · intro hcap; omega

/-- C5 witness: the theorem applied at buffer_size 2 with a full buffer
[1, 2] and incoming RMS 3: the oldest entry is evicted and the smoothed
level is the mean of the resulting buffer. -/
theorem c5_buffer_mean_witness :
    (ingest 2 [1, 2] 3).1.length ≤ 2
    ∧ (ingest 2 [1, 2] 3).2 = (ingest 2 [1, 2] 3).1.sum / ((ingest 2 [1, 2] 3).1.length : ℚ)
    ∧ (List.length [(1 : ℚ), 2] < 2 → (ingest 2 [1, 2] 3).1 = [1, 2] ++ [3])
    ∧ (List.length [(1 : ℚ), 2] = 2 → (ingest 2 [1, 2] 3).1 = List.drop 1 [(1 : ℚ), 2] ++ [3]) := by
  have h := c5_buffer_mean 2 [1, 2] 3 (by norm_num) (by simp)
  exact h

/-- C6 (code evaluated at the failing input): with threshold 1/100,
silence_duration 20 and sound confirmation 5, run from the start state with
a silent sample (level 1/500) at t = 1 — silence onset — and loud samples
(level 1/2) at t = 4 and t = 9.  The lamp turns green at t = 9 and the
single green callback receives payload 0, not the 3-second duration of the
silence that preceded the restored sound (t = 1 to t = 4): by the time the
lamp changes, `silence_start_time` was already cleared in the sound branch. -/
theorem c6_green_callback_gets_zero :
    (monRunEvents ⟨1/100, 20, 5⟩ startState [(1, 1/500), (4, 1/2), (9, 1/2)]).2
      = [LampEvent.toGreen 0]
    ∧ LampEvent.toGreen (0 : ℚ) ≠ LampEvent.toGreen 3 := by
  constructor
  · norm_num [monRunEvents, monStep, levelCheck, callbackCheck, startState, Option.getD]
  · intro hcon
    rw [LampEvent.toGreen.injEq] at hcon
    norm_num at hcon

/-- C10: on the first above-threshold iteration of a streak (no running
sound clock, sound unconfirmed) only `sound_started_at` is set: the lamp is
unchanged, the streak stays unconfirmed and no callback fires — for every
parameter choice, including `sound_confirmation_duration = 0` — so the lamp
cannot turn green before the second consecutive above-threshold iteration. -/
theorem c10_onset_never_confirms (p : Params) (L : Bool) (ss : Option ℚ)
    (t l : ℚ) (hl : ¬ l < p.threshold) :
    monStep p t l ⟨L, L, ss, none, false⟩ = (soundStreak L t, [])
    ∧ (monStep p t l ⟨L, L, ss, none, false⟩).1.lamp_status = L
    ∧ (monStep p t l ⟨L, L, ss, none, false⟩).1.sound_confirmed = false := by
  have h := stepSound_first p t l L ss hl
  exact ⟨h, by rw [h]; rfl, by rw [h]; rfl⟩

/-- C10 witness: the theorem applied with sound_confirmation_duration 0,
from the red start-state shape, with a loud sample (level 1/2 ≥ threshold
1/100) at t = 7: the lamp stays red on the onset iteration even though the
confirmation duration is zero. -/
theorem c10_onset_never_confirms_witness :
    monStep ⟨1/100, 20, 0⟩ 7 (1/2) ⟨true, true, none, none, false⟩
        = (soundStreak true 7, [])
    ∧ (monStep ⟨1/100, 20, 0⟩ 7 (1/2) ⟨true, true, none, none, false⟩).1.lamp_status = true
    ∧ (monStep ⟨1/100, 20, 0⟩ 7 (1/2) ⟨true, true, none, none, false⟩).1.sound_confirmed = false := by
  have h := c10_onset_never_confirms ⟨1/100, 20, 0⟩ true none 7 (1/2) (by norm_num)
  exact h

/-- C7 (as stated, refuted at a concrete input): from an enabled, idle
supervisor (no live loop), two consecutive successful `start_monitoring`
calls — the second issued while the first session is still active — leave
two monitor loops running at once: `start_monitoring` checks neither
`is_monitoring` nor the previous thread before spawning. -/
theorem c7_counterexample :
    ¬ ((start_monitoring true (start_monitoring true ⟨true, false, 0, false⟩).1).1.liveLoops ≤ 1) := by
  decide

/-- C7 (amended): a successful `start_monitoring` spawns exactly one loop,
so starting from a fully drained state (no live loop) leaves at most one
loop, and a completed `stop_monitoring` drains every loop; but the code does
not itself guard a start issued while a previous session is active or
draining — only the discipline of completing `stop_monitoring` before each
`start_monitoring` keeps a single loop. -/
theorem c7_single_loop_needs_drain (s : SupervisorState) (d : Bool)
    (hdrained : s.liveLoops = 0) :
    (start_monitoring d s).1.liveLoops ≤ 1
    ∧ (stop_monitoring (start_monitoring d s).1).1.liveLoops = 0
    ∧ (s.monitoring_enabled = true → d = true →
        (start_monitoring d s).1.liveLoops = s.liveLoops + 1) := by
  rcases s with ⟨en, mon, loops, stream⟩
  simp only at hdrained
  subst hdrained
  cases en <;> cases d <;> cases mon <;>
    simp [start_monitoring, stop_monitoring]

/-- C7 witness: the amended theorem applied to an enabled, idle, drained
supervisor and a successful device negotiation. -/
theorem c7_single_loop_needs_drain_witness :
    (start_monitoring true ⟨true, false, 0, false⟩).1.liveLoops ≤ 1
    ∧ (stop_monitoring (start_monitoring true ⟨true, false, 0, false⟩).1).1.liveLoops = 0
    ∧ ((true : Bool) = true → (true : Bool) = true →
        (start_monitoring true ⟨true, false, 0, false⟩).1.liveLoops
          = (⟨true, false, 0, false⟩ : SupervisorState).liveLoops + 1) := by
  have h := c7_single_loop_needs_drain ⟨true, false, 0, false⟩ true rfl
  exact h

/-- C9: `stop_monitoring` is idempotent — applied to the state left by any
previous `stop_monitoring` it changes nothing and performs no action — and
on a running session it signals the loop, joins the monitor thread, and only
then closes the audio stream, in that order. -/
theorem c9_stop_idempotent (s : SupervisorState) :
    stop_monitoring (stop_monitoring s).1 = ((stop_monitoring s).1, [])
    ∧ (s.is_monitoring = true →
        (stop_monitoring s).2
          = [StopEvent.signalStop, StopEvent.joinThread, StopEvent.closeStream]) := by
  rcases s with ⟨en, mon, loops, stream⟩
  cases mon <;> simp [stop_monitoring]

/-- C9 witness: the theorem applied to an enabled running session with one
live loop and an open stream. -/
theorem c9_stop_idempotent_witness :
    stop_monitoring (stop_monitoring ⟨true, true, 1, true⟩).1
        = ((stop_monitoring ⟨true, true, 1, true⟩).1, [])
    ∧ ((true : Bool) = true →
        (stop_monitoring (⟨true, true, 1, true⟩ : SupervisorState)).2
          = [StopEvent.signalStop, StopEvent.joinThread, StopEvent.closeStream]) := by
  have h := c9_stop_idempotent ⟨true, true, 1, true⟩
  exact h

/-- If the loop aborts through the consecutive-error path with an incoming
error count below `max_errors`, then either an initial block of failures
tops the counter up to `max_errors`, or `max_errors` consecutive failures
occur somewhere in the read sequence. -/
theorem runLoop_abort_window (p : Params) (B : Nat) :
    ∀ (rs : List ReadResult) (ls : LoopState), ls.error_count < max_errors →
    (runLoop p B ls rs).2 = true →
    (∃ k, 1 ≤ k ∧ k + ls.error_count = max_errors
        ∧ rs.take k = List.replicate k ReadResult.fail)
    ∨ ∃ i, (rs.drop i).take max_errors = List.replicate max_errors ReadResult.fail := by
  intro rs
  induction rs with
  | nil =>
    intro ls _ hab
    simp [runLoop] at hab
  | cons r rest ih =>
    intro ls hc hab
    cases r with
    | ok t rms =>
      rw [runLoop] at hab
      have hbrk : (loopIter p B ls (ReadResult.ok t rms)).2.2 = false := rfl
      rw [hbrk] at hab
      simp only [Bool.false_eq_true, if_false] at hab
      have hzero : (loopIter p B ls (ReadResult.ok t rms)).1.error_count = 0 := rfl
      have hres := ih (loopIter p B ls (ReadResult.ok t rms)).1
        (by rw [hzero]; simp [max_errors]) hab
      right
      rcases hres with ⟨k, _, hk5, htake⟩ | ⟨i, hw⟩
      · refine ⟨1, ?_⟩
        have hk : k = max_errors := by rw [hzero] at hk5; omega
        subst hk
        simpa using htake
      · exact ⟨i + 1, by simpa using hw⟩
    | fail =>
      rw [runLoop] at hab
      by_cases hb : max_errors ≤ ls.error_count + 1
      · left
        refine ⟨1, le_refl 1, ?_, ?_⟩
        · omega
        · simp
      · have hbrk : (loopIter p B ls ReadResult.fail).2.2 = false := by
          simp [loopIter, hb]
        rw [hbrk] at hab
        simp only [Bool.false_eq_true, if_false] at hab
        have hcount : (loopIter p B ls ReadResult.fail).1.error_count
            = ls.error_count + 1 := rfl
        have hres := ih (loopIter p B ls ReadResult.fail).1
          (by rw [hcount]; exact lt_of_not_le hb) hab
        rcases hres with ⟨k, hk1, hk5, htake⟩ | ⟨i, hw⟩
        · left
          rw [hcount] at hk5
          refine ⟨k + 1, by omega, by omega, ?_⟩
          simp [List.take_succ_cons, htake, List.replicate_succ]
        · right
          exact ⟨i + 1, by simpa using hw⟩

/-- C8 (as stated, refuted at a concrete input): five consecutive read
failures abort the monitor loop, but `is_monitoring` is never cleared by the
loop, so the status snapshot still reports monitoring as active — not
inactive — until `stop_monitoring` is called. -/
theorem c8_counterexample :
    (runSession ⟨1, 20, 5⟩ 10 ⟨true, true, ⟨startState, [], 0, 0⟩⟩
        [ReadResult.fail, ReadResult.fail, ReadResult.fail, ReadResult.fail,
          ReadResult.fail]).2 = true
    ∧ (get_lamp_status (runSession ⟨1, 20, 5⟩ 10 ⟨true, true, ⟨startState, [], 0, 0⟩⟩
        [ReadResult.fail, ReadResult.fail, ReadResult.fail, ReadResult.fail,
          ReadResult.fail]).1).monitoring_active = true := by
  constructor <;> rfl

/-- C8 (amended): a successful read resets the consecutive-error counter to
zero, a failed read increments it and requests the loop break exactly when
the counter reaches `max_errors` = 5, and a loop started with a zero counter
aborts through the error path only when 5 consecutive failures occur in the
read sequence; the abort, however, leaves `is_monitoring` untouched, so the
snapshot keeps reporting monitoring as active. -/
theorem c8_error_counter (p : Params) (B : Nat) :
    (∀ (s : LoopState) (t rms : ℚ),
        (loopIter p B s (ReadResult.ok t rms)).1.error_count = 0)
    ∧ (∀ s : LoopState, (loopIter p B s ReadResult.fail).1.error_count = s.error_count + 1
        ∧ ((loopIter p B s ReadResult.fail).2.2 = true ↔ max_errors ≤ s.error_count + 1))
    ∧ (∀ (sess : Session) (rs : List ReadResult),
        (runSession p B sess rs).1.is_monitoring = sess.is_monitoring
        ∧ (get_lamp_status (runSession p B sess rs).1).monitoring_active
            = sess.is_monitoring)
    ∧ (∀ (ls : LoopState) (rs : List ReadResult), ls.error_count = 0 →
        (runLoop p B ls rs).2 = true →
        ∃ i, (rs.drop i).take max_errors = List.replicate max_errors ReadResult.fail) := by
  refine ⟨?_, ?_, ?_, ?_⟩
  · intro s t rms
    rfl
  · intro s
    constructor
    · rfl
    · simp [loopIter]
  · intro sess rs
    constructor <;> rfl
  · intro ls rs h0 hab
    have := runLoop_abort_window p B rs ls (by rw [h0]; simp [max_errors]) hab
    rcases this with ⟨k, _, hk5, htake⟩ | hwin
    · refine ⟨0, ?_⟩
      have hk : k = max_errors := by omega
      subst hk
      simpa using htake
    · exact hwin

/-- C8 witness: the amended theorem applied with threshold 1,
the counter facts at an error count of 4, the flag preservation on a running
session, and the abort of a five-failure read sequence. -/
theorem c8_error_counter_witness :
    (loopIter ⟨1, 20, 5⟩ 10 ⟨startState, [], 0, 4⟩ (ReadResult.ok 2 0)).1.error_count = 0
    ∧ (loopIter ⟨1, 20, 5⟩ 10 ⟨startState, [], 0, 4⟩ ReadResult.fail).1.error_count = 4 + 1
    ∧ (runSession ⟨1, 20, 5⟩ 10 ⟨true, true, ⟨startState, [], 0, 0⟩⟩
        (List.replicate 5 ReadResult.fail)).1.is_monitoring = true
    ∧ ∃ i, ((List.replicate 5 ReadResult.fail).drop i).take max_errors
        = List.replicate max_errors ReadResult.fail := by
  have h := c8_error_counter ⟨1, 20, 5⟩ 10
  refine ⟨h.1 ⟨startState, [], 0, 4⟩ 2 0, (h.2.1 ⟨startState, [], 0, 4⟩).1, ?_, ?_⟩
  · exact (h.2.2.1 ⟨true, true, ⟨startState, [], 0, 0⟩⟩ (List.replicate 5 ReadResult.fail)).1
  · exact h.2.2.2 ⟨startState, [], 0, 0⟩ (List.replicate 5 ReadResult.fail) rfl rfl
